import Mathlib

/-!
Verification of the Ethernet PubSub transport channel
(`plugins/ua_pubsub_ethernet_lwip.c`) against its design specification.

The source file is shallowly embedded below.  Byte strings (`UA_String`
contents, hardware addresses, frame payloads) are modelled as `List Nat`
with each entry a byte value; machine integers are modelled as `Nat` with
explicit `% 2 ^ w` reductions where C truncation matters.  The status
codes used by the plugin are `UA_STATUSCODE_GOOD` and
`UA_STATUSCODE_BADINTERNALERROR` (the only two it ever returns).
-/

def ETH_ALEN : Nat := 6

def ETHERTYPE_UADP : Nat := 0xb62c

def ETHERTYPE_VLAN : Nat := 0x8100

def UA_STATUSCODE_GOOD : Nat := 0

def UA_STATUSCODE_BADINTERNALERROR : Nat := 0x80020000

/-! ## Hardware Address Codec -/

/-- A byte is a base-16 digit accepted by the number scanner:
`0`-`9`, `a`-`f` or `A`-`F` (the scanner lowercases letters and checks the
digit value against the base, so exactly these bytes are consumed for
base 16). -/
def isHexDigit16 (c : Nat) : Bool :=
  (48 ≤ c && c ≤ 57) || (97 ≤ c && c ≤ 102) || (65 ≤ c && c ≤ 70)

/-- The numeric value of a base-16 digit byte. -/
def hexVal16 (c : Nat) : Nat :=
  if 48 ≤ c && c ≤ 57 then c - 48
  else if 97 ≤ c && c ≤ 102 then c - 87
  else c - 55

/-- Modelled from the spec: `UA_readNumberWithBase` (the repository's
generic number scanner, declared in `open62541/util.h` but not present
under `src/`), specialised to base 16 as used by
`UA_parseHardwareAddress`: "parse a base-16 number" — it scans the
longest prefix of base-16 digits, accumulating their value.
`readHex16 buf n` returns `(value, charsConsumed, rest)` where `n` is the
accumulator (`0` at the top-level call, matching `value`'s
initialisation). -/
def readHex16 : List Nat → Nat → Nat × Nat × List Nat
  | [], n => (n, 0, [])
  | c :: rest, n =>
    if isHexDigit16 c then
      let r := readHex16 rest (n * 16 + hexVal16 c)
      (r.1, r.2.1 + 1, r.2.2)
    else (n, 0, c :: rest)

/-- The group-scanning loop of `UA_parseHardwareAddress`
(`for(; idx < ETH_ALEN; idx++) ...` plus the final `idx != ETH_ALEN-1`
check).  `k` is the number of loop iterations still allowed
(`ETH_ALEN - idx`); the `k = 0` case is the loop having run all six
iterations without the `curr == target->length` break, after which
`idx = 6 ≠ 5` makes the function fail.  Within an iteration: zero
progress or a value above `0xff` fails; if the scan reached the end of
the input the loop breaks, which succeeds exactly when this was the
sixth group (`k = 0` remaining afterwards, i.e. `idx = ETH_ALEN-1`); a
separator other than `'-'` (byte 45) fails; otherwise the separator is
skipped and the loop continues. -/
def parseGroups : Nat → List Nat → Except Nat (List Nat)
  | 0, _ => .error UA_STATUSCODE_BADINTERNALERROR
  | k + 1, rem =>
    let r := readHex16 rem 0
    if r.2.1 = 0 then .error UA_STATUSCODE_BADINTERNALERROR
    else if 255 < r.1 then .error UA_STATUSCODE_BADINTERNALERROR
    else
      match r.2.2 with
      | [] =>
        if k = 0 then .ok [r.1] else .error UA_STATUSCODE_BADINTERNALERROR
      | c :: rest =>
        if c = 45 then
          match parseGroups k rest with
          | .ok bs => .ok (r.1 :: bs)
          | .error e => .error e
        else .error UA_STATUSCODE_BADINTERNALERROR

/-- `UA_parseHardwareAddress`: parse a hyphen-separated hardware address
string (`target`, as its list of bytes) into the six destination MAC
bytes, or fail with `UA_STATUSCODE_BADINTERNALERROR`. -/
def UA_parseHardwareAddress (target : List Nat) : Except Nat (List Nat) :=
  parseGroups ETH_ALEN target

/-- The byte-scanning loop of `is_multicast_address`: returns `true` at
the first byte that differs from `0xff`. -/
def anyByteNotFF : List Nat → Bool
  | [] => false
  | b :: rest => if b ≠ 255 then true else anyByteNotFF rest

/-- `is_multicast_address`: a unicast first byte (bit 0 clear) is not
multicast; otherwise the address is multicast unless every byte is
`0xff` (broadcast). -/
def is_multicast_address (address : List Nat) : Bool :=
  if address.headD 0 &&& 1 = 0 then false
  else anyByteNotFF address

/-! Formatting a 6-byte address as six hyphen-separated two-digit
hexadecimal pairs (the canonical printed form named by the spec,
e.g. `01-23-45-67-89-AB`); this is the spec-side definition used by the
round-trip property. -/

/-- The character (byte) of a hex digit value, uppercase. -/
def hexDigitChar (n : Nat) : Nat :=
  if n < 10 then 48 + n else 55 + n

/-- A byte printed as exactly two hex digits. -/
def formatByte (b : Nat) : List Nat :=
  [hexDigitChar (b / 16), hexDigitChar (b % 16)]

/-- A byte list printed as two-digit hex pairs separated by `'-'`. -/
def formatHardwareAddress : List Nat → List Nat
  | [] => []
  | [b] => formatByte b
  | b :: rest => formatByte b ++ 45 :: formatHardwareAddress rest

/-! ## Ethernet PubSub channel: data model

`UA_PubSubChannelState` follows the `UA_PubSubChannelState` enumeration
of the generic channel model (the source references `UA_PUBSUB_CHANNEL_PUB`,
`UA_PUBSUB_CHANNEL_SUB`, `UA_PUBSUB_CHANNEL_PUB_SUB` and
`UA_PUBSUB_CHANNEL_RDY`). -/

inductive UA_PubSubChannelState where
  | unconfigured
  | rdy
  | pub
  | sub
  | pub_sub
  | error
deriving DecidableEq, Repr

/-- `UA_PubSubChannelDataEthernet`: the ethernet-specific internal data
of a channel.  Addresses are byte lists (6 entries). -/
structure UA_PubSubChannelDataEthernet where
  ifindex : Nat
  vid : Nat
  prio : Nat
  ifAddress : List Nat
  targetAddress : List Nat
deriving DecidableEq, Repr

/-- The fields of `UA_PubSubChannel` that the plugin reads or writes:
its lifecycle `state` and its `handle` (the ethernet-specific data). -/
structure UA_PubSubChannel where
  state : UA_PubSubChannelState
  handle : UA_PubSubChannelDataEthernet
deriving DecidableEq, Repr

/-! ## Send

The external lwip/raw-frame collaborators (`pbuf_alloc`,
`pbuf_add_header`, `UA_sendraw`) are out-of-scope capabilities; their
outcomes on the one frame a `send` call processes are supplied as an
environment.  The `SendResult` record captures everything observable
about a call: the returned status code, whether the invalid-state
branch was taken (the branch that logs "sending failed. Invalid
state."), how many frame buffers were allocated and freed, the payload
bytes and EtherType handed to `UA_sendraw` (or `none` when transmission
was never attempted), and the channel as left behind by the call. -/

structure SendEnv where
  /-- `pbuf_alloc` returns a non-NULL buffer. -/
  allocOk : Bool
  /-- `pbuf_add_header p SIZEOF_VLAN_HDR` succeeds (returns 0). -/
  addHeaderOk : Bool
  /-- the return value of `UA_sendraw`. -/
  sendResult : Int
deriving DecidableEq, Repr

structure SendResult where
  status : Nat
  invalidState : Bool
  allocated : Nat
  freed : Nat
  sentFrame : Option (List Nat)
  sentEthType : Option Nat
  channel : UA_PubSubChannel
deriving DecidableEq, Repr

/-- `UA_PubSubChannelEthernet_send`.  Mirrors the source: the state
check; `pbuf_alloc`/`pbuf_take` of the payload with the NULL check; for
`vid == 0` the EtherType is `ETHERTYPE_UADP` and the payload stays
untagged, otherwise the EtherType is `ETHERTYPE_VLAN` and a 4-byte
802.1Q header is prepended (`tpid = htons(ETHERTYPE_UADP)`,
`prio_vid = htons((UA_UInt16)(vid + (prio << 13)))`; `htons` of a 16-bit
value lays out its big-endian bytes) — with the source's early `return`
on `pbuf_add_header` failure, which does NOT call `pbuf_free`; then
`UA_sendraw` with `pbuf_free` on both the failure and the success
path.  The source never writes to `channel`, so every branch returns it
unchanged. -/
def UA_PubSubChannelEthernet_send (env : SendEnv) (channel : UA_PubSubChannel)
    (buf : List Nat) : SendResult :=
  if ¬(channel.state = .pub ∨ channel.state = .pub_sub) then
    ⟨UA_STATUSCODE_BADINTERNALERROR, true, 0, 0, none, none, channel⟩
  else if env.allocOk = false then
    ⟨UA_STATUSCODE_BADINTERNALERROR, false, 0, 0, none, none, channel⟩
  else if channel.handle.vid = 0 then
    ⟨if env.sendResult < 0 then UA_STATUSCODE_BADINTERNALERROR else UA_STATUSCODE_GOOD,
      false, 1, 1, some buf, some ETHERTYPE_UADP, channel⟩
  else if env.addHeaderOk = false then
    ⟨UA_STATUSCODE_BADINTERNALERROR, false, 1, 0, none, none, channel⟩
  else
    let vlanTag := (channel.handle.vid + channel.handle.prio * 2 ^ 13) % 2 ^ 16
    let payload := 0xb6 :: 0x2c :: vlanTag / 256 :: vlanTag % 256 :: buf
    ⟨if env.sendResult < 0 then UA_STATUSCODE_BADINTERNALERROR else UA_STATUSCODE_GOOD,
      false, 1, 1, some payload, some ETHERTYPE_VLAN, channel⟩

/-! ## Register / Unregister / Receive -/

/-- Result of `UA_PubSubChannelEthernet_regist`: status, whether the
invalid-state branch was taken, the multicast group-join requests issued
to the network-interface capability, and the channel left behind.  (In
the source the `setsockopt(PACKET_ADD_MEMBERSHIP, ...)` block is
commented out, so no join request is ever issued.) -/
structure RegistResult where
  status : Nat
  invalidState : Bool
  joinCalls : List (List Nat)
  channel : UA_PubSubChannel
deriving DecidableEq, Repr

/-- `UA_PubSubChannelEthernet_regist`. -/
def UA_PubSubChannelEthernet_regist (channel : UA_PubSubChannel) : RegistResult :=
  if ¬(channel.state = .pub ∨ channel.state = .rdy) then
    ⟨UA_STATUSCODE_BADINTERNALERROR, true, [], channel⟩
  else if ¬is_multicast_address channel.handle.targetAddress then
    ⟨UA_STATUSCODE_GOOD, false, [], channel⟩
  else
    ⟨UA_STATUSCODE_GOOD, false, [], channel⟩

/-- Result of `UA_PubSubChannelEthernet_unregist` (the
`PACKET_DROP_MEMBERSHIP` block is likewise commented out). -/
structure UnregistResult where
  status : Nat
  invalidState : Bool
  leaveCalls : List (List Nat)
  channel : UA_PubSubChannel
deriving DecidableEq, Repr

/-- `UA_PubSubChannelEthernet_unregist`. -/
def UA_PubSubChannelEthernet_unregist (channel : UA_PubSubChannel) : UnregistResult :=
  if ¬(channel.state = .pub_sub ∨ channel.state = .sub) then
    ⟨UA_STATUSCODE_BADINTERNALERROR, true, [], channel⟩
  else if ¬is_multicast_address channel.handle.targetAddress then
    ⟨UA_STATUSCODE_GOOD, false, [], channel⟩
  else
    ⟨UA_STATUSCODE_GOOD, false, [], channel⟩

structure ReceiveResult where
  status : Nat
  invalidState : Bool
  channel : UA_PubSubChannel
deriving DecidableEq, Repr

/-- `UA_PubSubChannelEthernet_receive` (reception itself is an
unimplemented `TODO` in the source; only the state check exists). -/
def UA_PubSubChannelEthernet_receive (channel : UA_PubSubChannel) : ReceiveResult :=
  if ¬(channel.state = .pub ∨ channel.state = .pub_sub) then
    ⟨UA_STATUSCODE_BADINTERNALERROR, true, channel⟩
  else
    ⟨UA_STATUSCODE_GOOD, false, channel⟩

/-! ## Open

The collaborators of `UA_PubSubChannelEthernet_open` are embedded as
follows: the `UA_Variant_hasScalarType(..., NETWORKADDRESSURLDATATYPE)`
check and the address payload become an `Option UA_NetworkAddressUrl`
(`none` = wrong scalar type); `UA_parseEndpointUrlEthernet` is an
external URL-parsing collaborator, so the address carries its result —
`none` = parse error, `some (target, vid, prio)` otherwise, `target`
being the byte string handed to `UA_parseHardwareAddress`; the two
`UA_calloc` outcomes and lwip's `netif_name_to_index` are supplied in an
`OpenEnv` (`resolve` returns the interface index, `0` when the name
cannot be resolved, as in lwip). -/

structure UA_NetworkAddressUrl where
  networkInterface : String
  urlParsed : Option (List Nat × Nat × Nat)

structure OpenEnv where
  dataAllocOk : Bool
  channelAllocOk : Bool
  resolve : String → Nat

structure OpenConfig where
  address : Option UA_NetworkAddressUrl

/-- Observable outcome of `open`: the returned channel (`none` = NULL),
how many heap blocks were allocated and freed during the call, and the
interface name passed to `netif_name_to_index` (`none` when the call was
never reached). -/
structure OpenResult where
  channel : Option UA_PubSubChannel
  allocs : Nat
  frees : Nat
  queried : Option String

/-- `UA_PubSubChannelEthernet_open`.  Mirrors the source paths: failed
`UA_calloc` of the internal data; wrong address variant type; failed
`UA_parseEndpointUrlEthernet`; failed `UA_parseHardwareAddress`; failed
`UA_calloc` of the channel — each later failure frees the internal data
block and returns NULL.  On success the interface index is taken from
`netif_name_to_index("xe")` (hardcoded name, result unchecked),
`handle` is set and the state becomes `UA_PUBSUB_CHANNEL_PUB`.
`ifAddress` stays zeroed (`UA_calloc`). -/
def UA_PubSubChannelEthernet_open (env : OpenEnv) (cfg : OpenConfig) : OpenResult :=
  if env.dataAllocOk = false then
    ⟨none, 0, 0, none⟩
  else
    match cfg.address with
    | none => ⟨none, 1, 1, none⟩
    | some address =>
      match address.urlParsed with
      | none => ⟨none, 1, 1, none⟩
      | some (target, vid, prio) =>
        match UA_parseHardwareAddress target with
        | .error _ => ⟨none, 1, 1, none⟩
        | .ok mac =>
          if env.channelAllocOk = false then
            ⟨none, 1, 1, none⟩
          else
            let index := env.resolve "xe"
            ⟨some ⟨.pub, ⟨index, vid, prio, [0, 0, 0, 0, 0, 0], mac⟩⟩, 2, 0, some "xe"⟩

/-! Sequencing of the lifecycle operations on a channel, for the
state-constancy invariant: each operation hands back the channel it was
given (the source never stores to `channel`), and `runOps` threads a
channel through an arbitrary call sequence. -/

inductive ChannelOp where
  | registOp
  | unregistOp
  | sendOp (env : SendEnv) (buf : List Nat)
  | receiveOp

def applyOp (c : UA_PubSubChannel) : ChannelOp → UA_PubSubChannel
  | .registOp => (UA_PubSubChannelEthernet_regist c).channel
  | .unregistOp => (UA_PubSubChannelEthernet_unregist c).channel
  | .sendOp env buf => (UA_PubSubChannelEthernet_send env c buf).channel
  | .receiveOp => (UA_PubSubChannelEthernet_receive c).channel

def runOps (l : List ChannelOp) (c : UA_PubSubChannel) : UA_PubSubChannel :=
  match l with
  | [] => c
  | op :: rest => runOps rest (applyOp c op)

/-! ## Spec-side definitions used to state the claims -/

/-- The 4-byte 802.1Q tag described by the spec: tag protocol identifier
`0xb62c` in network byte order, then the tag-control field
`vid | (priority << 13)` in network byte order. -/
def vlanTagBytes (vid prio : Nat) : List Nat :=
  [0xb6, 0x2c, (vid ||| (prio <<< 13)) / 256, (vid ||| (prio <<< 13)) % 256]

/-- Value of a digit group (base 16), accumulator form. -/
def hexAccVal (n : Nat) (g : List Nat) : Nat :=
  g.foldl (fun a c => a * 16 + hexVal16 c) n

/-- Value of a digit group (base 16). -/
def hexGroupVal (g : List Nat) : Nat := hexAccVal 0 g

/-- Split a byte string at every `'-'` (byte 45); a string with `n`
separators yields `n + 1` groups (empty groups included), so this is the
"groups separated by single `'-'` characters" decomposition named by the
spec. -/
def splitDash : List Nat → List (List Nat)
  | [] => [[]]
  | c :: rest =>
    if c = 45 then [] :: splitDash rest
    else
      match splitDash rest with
      | [] => [[c]]
      | g :: gs => (c :: g) :: gs

/-- A group acceptable to the parser: nonempty, hexadecimal digits only,
value at most one byte. -/
def goodGroup (g : List Nat) : Prop :=
  g ≠ [] ∧ (∀ c ∈ g, isHexDigit16 c = true) ∧ hexGroupVal g ≤ 255

instance (g : List Nat) : Decidable (goodGroup g) := by
  unfold goodGroup; infer_instance

/-- The amended success set: exactly 6 hyphen-separated groups, each a
nonempty run of hex digits whose value fits in a byte. -/
def sixGoodGroups (s : List Nat) : Prop :=
  (splitDash s).length = 6 ∧ ∀ g ∈ splitDash s, goodGroup g

instance (s : List Nat) : Decidable (sixGoodGroups s) := by
  unfold sixGoodGroups; infer_instance

/-- The success set asserted by the claim's sentence: exactly 6
hyphen-separated groups of 1–2 hexadecimal digits. -/
def claimedSixGroups (s : List Nat) : Prop :=
  (splitDash s).length = 6 ∧
    ∀ g ∈ splitDash s, g ≠ [] ∧ g.length ≤ 2 ∧ ∀ c ∈ g, isHexDigit16 c = true

instance (s : List Nat) : Decidable (claimedSixGroups s) := by
  unfold claimedSixGroups; infer_instance

/-! ## Concrete inputs used by witnesses and counterexamples -/

/-- The byte string `"0-0-0-0-0-0"`, a minimal well-formed target. -/
def zeroTargetString : List Nat :=
  [48, 45, 48, 45, 48, 45, 48, 45, 48, 45, 48]

/-- An environment for `open` whose resolver finds index 7 for every
name. -/
def openEnvW8 : OpenEnv := ⟨true, true, fun _ => 7⟩

/-- A well-formed configuration for `open`. -/
def openCfgW8 : OpenConfig := ⟨some ⟨"eth0", some (zeroTargetString, 0, 0)⟩⟩

/-- The channel `open openEnvW8 openCfgW8` produces. -/
def chW8 : UA_PubSubChannel := ⟨.pub, ⟨7, 0, 0, [0, 0, 0, 0, 0, 0], [0, 0, 0, 0, 0, 0]⟩⟩

/-- An environment for `open` whose resolver finds index 3 for every
name. -/
def openEnvW10 : OpenEnv := ⟨true, true, fun _ => 3⟩

/-- A well-formed configuration for `open`. -/
def openCfgW10 : OpenConfig := ⟨some ⟨"eth1", some (zeroTargetString, 0, 0)⟩⟩

/-- The channel `open openEnvW10 openCfgW10` produces. -/
def chW10 : UA_PubSubChannel := ⟨.pub, ⟨3, 0, 0, [0, 0, 0, 0, 0, 0], [0, 0, 0, 0, 0, 0]⟩⟩

/-- A publisher channel whose target address `01-00-5E-00-00-01` is
multicast-eligible. -/
def chMulticast : UA_PubSubChannel :=
  ⟨.pub, ⟨1, 0, 0, [0, 0, 0, 0, 0, 0], [1, 0, 94, 0, 0, 1]⟩⟩

/-- A ready channel whose target address `02-00-00-00-00-01` is
unicast. -/
def chUnicastRdy : UA_PubSubChannel :=
  ⟨.rdy, ⟨1, 0, 0, [0, 0, 0, 0, 0, 0], [2, 0, 0, 0, 0, 1]⟩⟩

/-- The byte string `"001-23-45-67-89-ab"`: a well-parsing address whose
first group has three digits. -/
def threeDigitGroupString : List Nat :=
  [48, 48, 49, 45, 50, 51, 45, 52, 53, 45, 54, 55, 45, 56, 57, 45, 97, 98]

/-- A send environment where allocation, header insertion and
transmission all succeed. -/
def sendEnvW1 : SendEnv := ⟨true, true, 0⟩

/-- A publisher channel with VLAN id 100 and priority 5. -/
def chVlanW1 : UA_PubSubChannel :=
  ⟨.pub, ⟨1, 100, 5, [0, 0, 0, 0, 0, 0], [1, 0, 94, 0, 0, 1]⟩⟩

/-! ## Helper lemmas -/

theorem regist_channel_eq (c : UA_PubSubChannel) :
    (UA_PubSubChannelEthernet_regist c).channel = c := by
  unfold UA_PubSubChannelEthernet_regist
  repeat first
  | rfl
  | split

theorem unregist_channel_eq (c : UA_PubSubChannel) :
    (UA_PubSubChannelEthernet_unregist c).channel = c := by
  unfold UA_PubSubChannelEthernet_unregist
  repeat first
  | rfl
  | split

theorem send_channel_eq (env : SendEnv) (c : UA_PubSubChannel) (buf : List Nat) :
    (UA_PubSubChannelEthernet_send env c buf).channel = c := by
  unfold UA_PubSubChannelEthernet_send
  repeat first
  | rfl
  | split

theorem receive_channel_eq (c : UA_PubSubChannel) :
    (UA_PubSubChannelEthernet_receive c).channel = c := by
  unfold UA_PubSubChannelEthernet_receive
  repeat first
  | rfl
  | split

theorem applyOp_eq (c : UA_PubSubChannel) (op : ChannelOp) : applyOp c op = c := by
  cases op with
  | registOp => exact regist_channel_eq c
  | unregistOp => exact unregist_channel_eq c
  | sendOp env buf => exact send_channel_eq env c buf
  | receiveOp => exact receive_channel_eq c

theorem runOps_eq (l : List ChannelOp) (c : UA_PubSubChannel) : runOps l c = c := by
  induction l generalizing c with
  | nil => rfl
  | cons op rest ih => rw [runOps, applyOp_eq, ih]

theorem open_channel_state (env : OpenEnv) (cfg : OpenConfig) (ch : UA_PubSubChannel)
    (h : (UA_PubSubChannelEthernet_open env cfg).channel = some ch) :
    ch.state = UA_PubSubChannelState.pub := by
  unfold UA_PubSubChannelEthernet_open at h
  split at h
  · simp at h
  · split at h
    · simp at h
    · split at h
      · simp at h
      · split at h
        · simp at h
        · split at h
          · simp at h
          · simp only [Option.some.injEq] at h
            rw [← h]

theorem regist_invalid_result (c : UA_PubSubChannel)
    (h : ¬(c.state = .pub ∨ c.state = .rdy)) :
    UA_PubSubChannelEthernet_regist c =
      ⟨UA_STATUSCODE_BADINTERNALERROR, true, [], c⟩ := by
  unfold UA_PubSubChannelEthernet_regist
  rw [if_pos h]

theorem unregist_invalid_result (c : UA_PubSubChannel)
    (h : ¬(c.state = .pub_sub ∨ c.state = .sub)) :
    UA_PubSubChannelEthernet_unregist c =
      ⟨UA_STATUSCODE_BADINTERNALERROR, true, [], c⟩ := by
  unfold UA_PubSubChannelEthernet_unregist
  rw [if_pos h]

theorem send_invalid_result (env : SendEnv) (c : UA_PubSubChannel) (buf : List Nat)
    (h : ¬(c.state = .pub ∨ c.state = .pub_sub)) :
    UA_PubSubChannelEthernet_send env c buf =
      ⟨UA_STATUSCODE_BADINTERNALERROR, true, 0, 0, none, none, c⟩ := by
  unfold UA_PubSubChannelEthernet_send
  rw [if_pos h]

theorem receive_invalid_result (c : UA_PubSubChannel)
    (h : ¬(c.state = .pub ∨ c.state = .pub_sub)) :
    UA_PubSubChannelEthernet_receive c =
      ⟨UA_STATUSCODE_BADINTERNALERROR, true, c⟩ := by
  unfold UA_PubSubChannelEthernet_receive
  rw [if_pos h]

theorem regist_invalidState_iff (c : UA_PubSubChannel) :
    (UA_PubSubChannelEthernet_regist c).invalidState = true ↔
      ¬(c.state = .pub ∨ c.state = .rdy) := by
  unfold UA_PubSubChannelEthernet_regist
  split
  · next h => simpa using h
  · next h => split <;> simpa using h

theorem unregist_invalidState_iff (c : UA_PubSubChannel) :
    (UA_PubSubChannelEthernet_unregist c).invalidState = true ↔
      ¬(c.state = .pub_sub ∨ c.state = .sub) := by
  unfold UA_PubSubChannelEthernet_unregist
  split
  · next h => simpa using h
  · next h => split <;> simpa using h

theorem send_invalidState_iff (env : SendEnv) (c : UA_PubSubChannel) (buf : List Nat) :
    (UA_PubSubChannelEthernet_send env c buf).invalidState = true ↔
      ¬(c.state = .pub ∨ c.state = .pub_sub) := by
  unfold UA_PubSubChannelEthernet_send
  split
  · next h => simpa using h
  · next h =>
    split
    · simpa using h
    · split
      · simpa using h
      · split <;> simpa using h

theorem receive_invalidState_iff (c : UA_PubSubChannel) :
    (UA_PubSubChannelEthernet_receive c).invalidState = true ↔
      ¬(c.state = .pub ∨ c.state = .pub_sub) := by
  unfold UA_PubSubChannelEthernet_receive
  split
  · next h => simpa using h
  · next h => simpa using h

theorem anyByteNotFF_iff (l : List Nat) : anyByteNotFF l = true ↔ ∃ b ∈ l, b ≠ 255 := by
  induction l with
  | nil => simp [anyByteNotFF]
  | cons b rest ih =>
    by_cases hb : b = 255
    · simp [anyByteNotFF, hb, ih]
    · simp [anyByteNotFF, hb]

/-! ## Claims -/

/-- C3 (code-bug evaluation): on a publisher channel with VLAN id 1,
when the frame buffer is allocated but `pbuf_add_header` fails, `send`
returns `UA_STATUSCODE_BADINTERNALERROR` with one buffer allocated and
none freed — the source's `pbuf_add_header` failure branch returns
without `pbuf_free(p)`, contradicting the claim that every exit path
after allocation releases the buffer. -/
theorem C3_send_vlan_header_failure_leaks :
    UA_PubSubChannelEthernet_send ⟨true, false, 0⟩
        ⟨.pub, ⟨1, 1, 0, [0, 0, 0, 0, 0, 0], [1, 35, 69, 103, 137, 171]⟩⟩ [1, 2, 3] =
      ⟨UA_STATUSCODE_BADINTERNALERROR, false, 1, 0, none, none,
        ⟨.pub, ⟨1, 1, 0, [0, 0, 0, 0, 0, 0], [1, 35, 69, 103, 137, 171]⟩⟩⟩ := by
  decide

/-- C4: each lifecycle operation takes its invalid-state branch exactly
when its state precondition fails — `regist` requires PUBLISHER or
READY, `unregist` requires PUBLISHER_SUBSCRIBER or SUBSCRIBER, `send`
and `receive` require PUBLISHER or PUBLISHER_SUBSCRIBER — and on that
branch it returns `UA_STATUSCODE_BADINTERNALERROR` with no side effect:
no group join/leave, no frame allocated or transmitted, and the channel
handed back unchanged. -/
theorem C4_invalid_state_gating (c : UA_PubSubChannel) (env : SendEnv) (buf : List Nat) :
    (((UA_PubSubChannelEthernet_regist c).invalidState = true ↔
        ¬(c.state = .pub ∨ c.state = .rdy)) ∧
      ((UA_PubSubChannelEthernet_regist c).invalidState = false ∨
        UA_PubSubChannelEthernet_regist c =
          ⟨UA_STATUSCODE_BADINTERNALERROR, true, [], c⟩)) ∧
    (((UA_PubSubChannelEthernet_unregist c).invalidState = true ↔
        ¬(c.state = .pub_sub ∨ c.state = .sub)) ∧
      ((UA_PubSubChannelEthernet_unregist c).invalidState = false ∨
        UA_PubSubChannelEthernet_unregist c =
          ⟨UA_STATUSCODE_BADINTERNALERROR, true, [], c⟩)) ∧
    (((UA_PubSubChannelEthernet_send env c buf).invalidState = true ↔
        ¬(c.state = .pub ∨ c.state = .pub_sub)) ∧
      ((UA_PubSubChannelEthernet_send env c buf).invalidState = false ∨
        UA_PubSubChannelEthernet_send env c buf =
          ⟨UA_STATUSCODE_BADINTERNALERROR, true, 0, 0, none, none, c⟩)) ∧
    (((UA_PubSubChannelEthernet_receive c).invalidState = true ↔
        ¬(c.state = .pub ∨ c.state = .pub_sub)) ∧
      ((UA_PubSubChannelEthernet_receive c).invalidState = false ∨
        UA_PubSubChannelEthernet_receive c =
          ⟨UA_STATUSCODE_BADINTERNALERROR, true, c⟩)) := by
  refine ⟨⟨regist_invalidState_iff c, ?_⟩, ⟨unregist_invalidState_iff c, ?_⟩,
    ⟨send_invalidState_iff env c buf, ?_⟩, ⟨receive_invalidState_iff c, ?_⟩⟩
  · by_cases h : c.state = .pub ∨ c.state = .rdy
    · left
      rw [Bool.eq_false_iff]
      intro ht
      exact (regist_invalidState_iff c).mp ht h
    · right
      exact regist_invalid_result c h
  · by_cases h : c.state = .pub_sub ∨ c.state = .sub
    · left
      rw [Bool.eq_false_iff]
      intro ht
      exact (unregist_invalidState_iff c).mp ht h
    · right
      exact unregist_invalid_result c h
  · by_cases h : c.state = .pub ∨ c.state = .pub_sub
    · left
      rw [Bool.eq_false_iff]
      intro ht
      exact (send_invalidState_iff env c buf).mp ht h
    · right
      exact send_invalid_result env c buf h
  · by_cases h : c.state = .pub ∨ c.state = .pub_sub
    · left
      rw [Bool.eq_false_iff]
      intro ht
      exact (receive_invalidState_iff c).mp ht h
    · right
      exact receive_invalid_result c h

/-- C6: `is_multicast_address` returns true on a 6-byte address iff the
least-significant bit of the first byte is 1 and the address is not the
all-ones broadcast address; in particular it is false on
`FF-FF-FF-FF-FF-FF`, true on `01-00-5E-00-00-01` and false on
`02-00-00-00-00-01`. -/
theorem C6_multicast_classification :
    (∀ a : List Nat, a.length = 6 → (∀ b ∈ a, b < 256) →
      (is_multicast_address a = true ↔
        (a.headD 0 % 2 = 1 ∧ a ≠ [255, 255, 255, 255, 255, 255]))) ∧
    is_multicast_address [255, 255, 255, 255, 255, 255] = false ∧
    is_multicast_address [1, 0, 94, 0, 0, 1] = true ∧
    is_multicast_address [2, 0, 0, 0, 0, 1] = false := by
  refine ⟨?_, by decide, by decide, by decide⟩
  intro a hlen _hbytes
  match a, hlen with
  | [b0, b1, b2, b3, b4, b5], _ =>
    rw [is_multicast_address]
    by_cases h0 : b0 % 2 = 0
    · rw [if_pos (by simpa [Nat.and_one_is_mod] using h0)]
      simp only [Bool.false_eq_true, false_iff, not_and]
      intro h1
      simp only [List.headD_cons] at h1
      omega
    · rw [if_neg (by simpa [Nat.and_one_is_mod] using h0)]
      rw [anyByteNotFF_iff]
      simp only [List.headD_cons]
      constructor
      · rintro ⟨b, hmem, hne⟩
        refine ⟨by omega, ?_⟩
        intro heq
        simp only [List.cons.injEq, and_true] at heq
        obtain ⟨e0, e1, e2, e3, e4, e5⟩ := heq
        subst e0; subst e1; subst e2; subst e3; subst e4; subst e5
        simp only [List.mem_cons, List.not_mem_nil, or_false] at hmem
        rcases hmem with rfl | rfl | rfl | rfl | rfl | rfl <;> exact hne rfl
      · rintro ⟨_, hneq⟩
        by_contra hall
        push_neg at hall
        refine hneq ?_
        have e0 := hall b0 (by simp)
        have e1 := hall b1 (by simp)
        have e2 := hall b2 (by simp)
        have e3 := hall b3 (by simp)
        have e4 := hall b4 (by simp)
        have e5 := hall b5 (by simp)
        rw [e0, e1, e2, e3, e4, e5]

/-- C7: `open` never lets a partially constructed channel escape: on
every failing path it returns NULL having freed exactly as many heap
blocks as it allocated, and on success the returned channel is in state
PUBLISHER (with its two blocks owned by the caller, none freed). -/
theorem C7_open_unwinds_on_failure (env : OpenEnv) (cfg : OpenConfig) :
    (UA_PubSubChannelEthernet_open env cfg).channel.elim
      ((UA_PubSubChannelEthernet_open env cfg).allocs =
        (UA_PubSubChannelEthernet_open env cfg).frees)
      (fun ch => ch.state = .pub ∧ (UA_PubSubChannelEthernet_open env cfg).frees = 0) := by
  unfold UA_PubSubChannelEthernet_open
  repeat first
  | exact rfl
  | exact ⟨rfl, rfl⟩
  | split

/-- C8 counterexample: with a resolver that cannot resolve any interface
name (lwip's `netif_name_to_index` returns 0 when the name is not
found) and an otherwise well-formed configuration, `open` still returns
a channel instead of failing — refuting the claim that `open` fails
with an error whenever the named interface cannot be resolved. -/
theorem C8_counterexample_resolution_failure_ignored :
    ((UA_PubSubChannelEthernet_open ⟨true, true, fun _ => 0⟩
        ⟨some ⟨"eth0", some (zeroTargetString, 0, 0)⟩⟩).channel).isSome = true := rfl

/-- C8 (amended): `open` queries the interface resolver only with the
hardcoded name `"xe"` and stores the returned index unchecked in the
channel; whether `open` succeeds is characterised entirely by the
address type, the URL parse, the hardware-address parse and the two
allocations — interface resolution can never make it fail. -/
theorem C8_open_interface_resolution (env : OpenEnv) (cfg : OpenConfig) :
    ((UA_PubSubChannelEthernet_open env cfg).channel.isSome = true ↔
      (env.dataAllocOk = true ∧ ∃ a, cfg.address = some a ∧
        ∃ t v p, a.urlParsed = some (t, v, p) ∧
          (UA_parseHardwareAddress t).isOk = true ∧ env.channelAllocOk = true)) ∧
    (∀ s, (UA_PubSubChannelEthernet_open env cfg).queried = some s → s = "xe") ∧
    (∀ ch, (UA_PubSubChannelEthernet_open env cfg).channel = some ch →
      ch.handle.ifindex = env.resolve "xe") := by
  obtain ⟨da, ca, res⟩ := env
  obtain ⟨addr⟩ := cfg
  cases da with
  | false => simp [UA_PubSubChannelEthernet_open]
  | true =>
    cases addr with
    | none => simp [UA_PubSubChannelEthernet_open]
    | some a =>
      obtain ⟨ni, up⟩ := a
      cases up with
      | none => simp [UA_PubSubChannelEthernet_open]
      | some tvp =>
        obtain ⟨t, v, p⟩ := tvp
        cases hmac : UA_parseHardwareAddress t with
        | error e => simp [UA_PubSubChannelEthernet_open, hmac, Except.isOk, Except.toBool]
        | ok mac =>
          cases ca with
          | false => simp [UA_PubSubChannelEthernet_open, hmac, Except.isOk, Except.toBool]
          | true =>
            refine ⟨?_, ?_, ?_⟩
            · simp [UA_PubSubChannelEthernet_open, hmac, Except.isOk, Except.toBool]
            · intro s hs
              simp [UA_PubSubChannelEthernet_open, hmac] at hs
              exact hs.symm
            · intro ch hch
              simp [UA_PubSubChannelEthernet_open, hmac] at hch
              rw [← hch]

/-- C8 witness for the amended theorem: a concrete successful open
stores the resolver's answer for `"xe"` as the interface index. -/
theorem C8_open_interface_resolution_witness :
    chW8.handle.ifindex = openEnvW8.resolve "xe" :=
  (C8_open_interface_resolution openEnvW8 openCfgW8).2.2 chW8 rfl

/-- C9 counterexample: on a publisher channel whose target
`01-00-5E-00-00-01` is multicast-eligible, `regist` succeeds without
issuing any group-join request (the `PACKET_ADD_MEMBERSHIP` block is
commented out in the source) — refuting the claim that `Register`
invokes the JoinGroup capability for multicast-eligible targets. -/
theorem C9_counterexample_no_join_issued :
    is_multicast_address chMulticast.handle.targetAddress = true ∧
    (UA_PubSubChannelEthernet_regist chMulticast).status = UA_STATUSCODE_GOOD ∧
    (UA_PubSubChannelEthernet_regist chMulticast).joinCalls = [] := by
  decide

/-- C9 (amended): `regist` in a valid state (PUBLISHER or READY) always
returns success and never issues a group-membership request, whether or
not the target address is multicast-eligible. -/
theorem C9_regist_valid_state_no_join (c : UA_PubSubChannel)
    (h : c.state = .pub ∨ c.state = .rdy) :
    (UA_PubSubChannelEthernet_regist c).status = UA_STATUSCODE_GOOD ∧
    (UA_PubSubChannelEthernet_regist c).joinCalls = [] := by
  unfold UA_PubSubChannelEthernet_regist
  rw [if_neg (not_not_intro h)]
  split <;> exact ⟨rfl, rfl⟩

/-- C9 witness: the amended theorem applied to a ready channel with a
unicast target. -/
theorem C9_regist_valid_state_no_join_witness :
    (UA_PubSubChannelEthernet_regist chUnicastRdy).status = UA_STATUSCODE_GOOD ∧
    (UA_PubSubChannelEthernet_regist chUnicastRdy).joinCalls = [] :=
  C9_regist_valid_state_no_join chUnicastRdy (Or.inr rfl)

/-- C10: a channel returned by `open` is in state PUBLISHER and no
sequence of `regist`/`unregist`/`send`/`receive` calls ever modifies
it (none of those operations writes to the channel), so the state never
becomes PUBLISHER_SUBSCRIBER or SUBSCRIBER and `unregist` on such a
channel always takes the invalid-state branch and returns
`UA_STATUSCODE_BADINTERNALERROR`. -/
theorem C10_state_never_modified (l : List ChannelOp) (env : OpenEnv) (cfg : OpenConfig)
    (ch : UA_PubSubChannel)
    (h : (UA_PubSubChannelEthernet_open env cfg).channel = some ch) :
    (runOps l ch).state = .pub ∧
    (UA_PubSubChannelEthernet_unregist (runOps l ch)).status =
      UA_STATUSCODE_BADINTERNALERROR ∧
    (UA_PubSubChannelEthernet_unregist (runOps l ch)).invalidState = true := by
  have hst : ch.state = .pub := open_channel_state env cfg ch h
  rw [runOps_eq]
  have hinv : UA_PubSubChannelEthernet_unregist ch =
      ⟨UA_STATUSCODE_BADINTERNALERROR, true, [], ch⟩ :=
    unregist_invalid_result ch (by simp [hst])
  rw [hinv]
  exact ⟨hst, rfl, rfl⟩

/-- C10 witness: a concrete open followed by a `regist` and a `send`;
the state is still PUBLISHER and `unregist` fails with the
invalid-state error. -/
theorem C10_state_never_modified_witness :
    (runOps [ChannelOp.registOp, ChannelOp.sendOp ⟨true, true, 0⟩ [1, 2, 3]] chW10).state = .pub ∧
    (UA_PubSubChannelEthernet_unregist
      (runOps [ChannelOp.registOp, ChannelOp.sendOp ⟨true, true, 0⟩ [1, 2, 3]] chW10)).status =
      UA_STATUSCODE_BADINTERNALERROR ∧
    (UA_PubSubChannelEthernet_unregist
      (runOps [ChannelOp.registOp, ChannelOp.sendOp ⟨true, true, 0⟩ [1, 2, 3]] chW10)).invalidState =
      true :=
  C10_state_never_modified [ChannelOp.registOp, ChannelOp.sendOp ⟨true, true, 0⟩ [1, 2, 3]]
    openEnvW10 openCfgW10 chW10 rfl

/-! ## Lemmas for the send framing claim -/

theorem vlanTag_mod_eq_lor (vid prio : Nat) (h1 : vid < 4096) (h2 : prio ≤ 7) :
    (vid + prio * 2 ^ 13) % 2 ^ 16 = vid ||| (prio <<< 13) := by
  have hb : vid < 2 ^ 13 := by omega
  have hor := Nat.mul_add_lt_is_or hb prio
  have hmul : prio * 2 ^ 13 ≤ 7 * 2 ^ 13 := Nat.mul_le_mul_right _ h2
  have hlt : vid + prio * 2 ^ 13 < 2 ^ 16 := by omega
  rw [Nat.mod_eq_of_lt hlt, Nat.shiftLeft_eq]
  calc vid + prio * 2 ^ 13 = 2 ^ 13 * prio + vid := by ring
    _ = 2 ^ 13 * prio ||| vid := hor
    _ = vid ||| 2 ^ 13 * prio := Nat.lor_comm _ _
    _ = vid ||| prio * 2 ^ 13 := by rw [Nat.mul_comm]

/-- C1: a `send` in a valid state, with the frame buffer allocated and
(for the tagged case) the header inserted, hands `UA_sendraw` exactly
the claimed frame: with VLAN id 0 the untouched payload under EtherType
`0xB62C`; with VLAN id ≠ 0 the payload prefixed by the 4-byte 802.1Q
tag whose TPID is `0xB62C` in network byte order and whose tag-control
field is `vid | (priority << 13)` in network byte order, under EtherType
`0x8100`. -/
theorem C1_send_framing (env : SendEnv) (c : UA_PubSubChannel) (buf : List Nat)
    (hstate : c.state = .pub ∨ c.state = .pub_sub)
    (hvid : c.handle.vid < 4096) (hprio : c.handle.prio ≤ 7)
    (halloc : env.allocOk = true) (hhdr : env.addHeaderOk = true) :
    (UA_PubSubChannelEthernet_send env c buf).sentEthType =
      some (if c.handle.vid = 0 then ETHERTYPE_UADP else ETHERTYPE_VLAN) ∧
    (UA_PubSubChannelEthernet_send env c buf).sentFrame =
      some (if c.handle.vid = 0 then buf
        else vlanTagBytes c.handle.vid c.handle.prio ++ buf) := by
  have htag := vlanTag_mod_eq_lor c.handle.vid c.handle.prio hvid hprio
  unfold UA_PubSubChannelEthernet_send
  rw [if_neg (not_not_intro hstate), halloc]
  by_cases hv : c.handle.vid = 0
  · simp [hv]
  · rw [hhdr]
    simp only [hv, Bool.true_eq_false, if_false, vlanTagBytes, htag]
    constructor
    · trivial
    · simp [htag]

/-- C1 witness: sending `[1, 2, 3]` on a publisher channel with VLAN id
100 and priority 5; the EtherType is `0x8100` and the frame starts with
the 802.1Q tag for `100 | (5 << 13)`. -/
theorem C1_send_framing_witness :
    (UA_PubSubChannelEthernet_send sendEnvW1 chVlanW1 [1, 2, 3]).sentEthType =
      some ETHERTYPE_VLAN ∧
    (UA_PubSubChannelEthernet_send sendEnvW1 chVlanW1 [1, 2, 3]).sentFrame =
      some (vlanTagBytes 100 5 ++ [1, 2, 3]) := by
  have h := C1_send_framing sendEnvW1 chVlanW1 [1, 2, 3] (Or.inl rfl)
    (by decide) (by decide) rfl rfl
  simpa using h

/-! ## Lemmas for the round-trip claim -/

theorem hexDigitChar_isHexDigit {d : Nat} (h : d < 16) :
    isHexDigit16 (hexDigitChar d) = true := by
  interval_cases d <;> decide

theorem hexVal16_hexDigitChar {d : Nat} (h : d < 16) :
    hexVal16 (hexDigitChar d) = d := by
  interval_cases d <;> decide

theorem readHex16_formatByte (b : Nat) (hb : b < 256) (rest : List Nat) (n : Nat)
    (hrest : rest = [] ∨ ∃ c r, rest = c :: r ∧ isHexDigit16 c = false) :
    readHex16 (formatByte b ++ rest) n = (n * 256 + b, 2, rest) := by
  have h1 : b / 16 < 16 := by omega
  have h2 : b % 16 < 16 := by omega
  have e1 : formatByte b ++ rest =
      hexDigitChar (b / 16) :: hexDigitChar (b % 16) :: rest := rfl
  rw [e1]
  simp only [readHex16, hexDigitChar_isHexDigit h1, hexDigitChar_isHexDigit h2,
    if_true, hexVal16_hexDigitChar h1, hexVal16_hexDigitChar h2]
  rcases hrest with rfl | ⟨c, r, rfl, hc⟩
  · simp only [readHex16, Prod.mk.injEq]
    ring_nf
    exact ⟨by omega, trivial⟩
  · simp only [readHex16, hc, Bool.false_eq_true, if_false, Prod.mk.injEq]
    ring_nf
    exact ⟨by omega, trivial⟩

theorem parseGroups_step (k b : Nat) (hb : b < 256) (rest : List Nat) :
    parseGroups (k + 1) (formatByte b ++ 45 :: rest) =
      match parseGroups k rest with
      | .ok bs => .ok (b :: bs)
      | .error e => .error e := by
  have hr := readHex16_formatByte b hb (45 :: rest) 0 (Or.inr ⟨45, rest, rfl, rfl⟩)
  rw [Nat.zero_mul, Nat.zero_add] at hr
  simp only [parseGroups, hr]
  rw [if_neg (by norm_num), if_neg (by omega : ¬255 < b), if_pos trivial]

theorem parseGroups_last (b : Nat) (hb : b < 256) :
    parseGroups 1 (formatByte b) = .ok [b] := by
  have hr := readHex16_formatByte b hb [] 0 (Or.inl rfl)
  rw [Nat.zero_mul, Nat.zero_add, List.append_nil] at hr
  simp only [parseGroups, hr]
  rw [if_neg (by norm_num), if_neg (by omega : ¬255 < b), if_pos trivial]

/-- C2: formatting any 6-byte address as six hyphen-separated two-digit
hexadecimal pairs and parsing the result with `UA_parseHardwareAddress`
succeeds and returns exactly the original bytes. -/
theorem C2_parse_format_roundtrip (a : List Nat) (hlen : a.length = 6)
    (hbytes : ∀ b ∈ a, b < 256) :
    UA_parseHardwareAddress (formatHardwareAddress a) = .ok a := by
  match a, hlen with
  | [b0, b1, b2, b3, b4, b5], _ =>
    have h0 : b0 < 256 := hbytes b0 (by simp)
    have h1 : b1 < 256 := hbytes b1 (by simp)
    have h2 : b2 < 256 := hbytes b2 (by simp)
    have h3 : b3 < 256 := hbytes b3 (by simp)
    have h4 : b4 < 256 := hbytes b4 (by simp)
    have h5 : b5 < 256 := hbytes b5 (by simp)
    show parseGroups 6 (formatByte b0 ++ 45 :: (formatByte b1 ++ 45 ::
      (formatByte b2 ++ 45 :: (formatByte b3 ++ 45 :: (formatByte b4 ++ 45 ::
        formatByte b5))))) = .ok [b0, b1, b2, b3, b4, b5]
    rw [parseGroups_step 5 b0 h0, parseGroups_step 4 b1 h1, parseGroups_step 3 b2 h2,
      parseGroups_step 2 b3 h3, parseGroups_step 1 b4 h4, parseGroups_last b5 h5]

/-- C2 witness: the round trip on `01-23-45-67-89-AB`. -/
theorem C2_parse_format_roundtrip_witness :
    UA_parseHardwareAddress (formatHardwareAddress [1, 35, 69, 103, 137, 171]) =
      .ok [1, 35, 69, 103, 137, 171] :=
  C2_parse_format_roundtrip [1, 35, 69, 103, 137, 171] rfl (by decide)

/-! ## Lemmas for the parse-success characterisation -/

theorem mem_takeWhile_sat {p : Nat → Bool} :
    ∀ {l : List Nat} {a : Nat}, a ∈ l.takeWhile p → p a = true := by
  intro l
  induction l with
  | nil => intro a h; simp at h
  | cons c rest ih =>
    intro a h
    by_cases hc : p c
    · rw [List.takeWhile_cons_of_pos hc] at h
      rcases List.mem_cons.mp h with rfl | h'
      · exact hc
      · exact ih h'
    · rw [List.takeWhile_cons_of_neg hc] at h
      simp at h

theorem dropWhile_head_false {p : Nat → Bool} :
    ∀ {l : List Nat} {c : Nat} {r : List Nat}, l.dropWhile p = c :: r → p c = false := by
  intro l
  induction l with
  | nil => intro c r h; simp at h
  | cons a t ih =>
    intro c r h
    by_cases ha : p a
    · rw [List.dropWhile_cons_of_pos ha] at h
      exact ih h
    · rw [List.dropWhile_cons_of_neg ha] at h
      cases h
      exact Bool.eq_false_iff.mpr ha

theorem takeWhile_append_all {p : Nat → Bool} (g rest : List Nat)
    (hg : ∀ c ∈ g, p c = true)
    (hrest : rest = [] ∨ ∃ c r, rest = c :: r ∧ p c = false) :
    (g ++ rest).takeWhile p = g ∧ (g ++ rest).dropWhile p = rest := by
  induction g with
  | nil =>
    rcases hrest with rfl | ⟨c, r, rfl, hc⟩
    · exact ⟨rfl, rfl⟩
    · simp only [List.nil_append]
      rw [List.takeWhile_cons_of_neg (by simp [hc]), List.dropWhile_cons_of_neg (by simp [hc])]
      exact ⟨rfl, rfl⟩
  | cons a t ih =>
    have ha : p a = true := hg a (by simp)
    have iht := ih (fun x hx => hg x (by simp [hx]))
    simp only [List.cons_append]
    rw [List.takeWhile_cons_of_pos ha, List.dropWhile_cons_of_pos ha, iht.1, iht.2]
    exact ⟨rfl, rfl⟩

theorem splitDash_ne_nil (s : List Nat) : splitDash s ≠ [] := by
  induction s with
  | nil => simp [splitDash]
  | cons c rest ih =>
    by_cases hc : c = 45
    · simp [splitDash, hc]
    · simp only [splitDash, hc, if_false]
      cases h : splitDash rest with
      | nil => simp
      | cons g gs => simp

theorem splitDash_eq_cons (s : List Nat) (G : List Nat) (Gs : List (List Nat))
    (h : splitDash s = G :: Gs) :
    (∀ c ∈ G, c ≠ 45) ∧
      ((Gs = [] ∧ s = G) ∨ (∃ s2, s = G ++ 45 :: s2 ∧ splitDash s2 = Gs)) := by
  induction s generalizing G Gs with
  | nil =>
    rw [show splitDash [] = [[]] from rfl] at h
    injection h with h1 h2
    subst h1; subst h2
    exact ⟨by simp, Or.inl ⟨rfl, rfl⟩⟩
  | cons c rest ih =>
    by_cases hc : c = 45
    · subst hc
      rw [show splitDash (45 :: rest) = [] :: splitDash rest from by simp [splitDash]] at h
      injection h with h1 h2
      subst h1
      exact ⟨by simp, Or.inr ⟨rest, by simp, h2⟩⟩
    · simp only [splitDash, hc, if_false] at h
      cases hrest : splitDash rest with
      | nil => exact absurd hrest (splitDash_ne_nil rest)
      | cons g gs =>
        rw [hrest] at h
        injection h with h1 h2
        subst h2
        obtain ⟨hno45, hcase⟩ := ih g gs hrest
        constructor
        · intro x hx
          rw [← h1] at hx
          rcases List.mem_cons.mp hx with rfl | hx'
          · exact hc
          · exact hno45 x hx'
        · rcases hcase with ⟨hgs, hrg⟩ | ⟨s2, hrg, hs2⟩
          · left
            exact ⟨hgs, by rw [← h1, hrg]⟩
          · right
            exact ⟨s2, by rw [← h1, List.cons_append, ← hrg], hs2⟩

theorem splitDash_no_dash (g : List Nat) (hg : ∀ c ∈ g, c ≠ 45) : splitDash g = [g] := by
  induction g with
  | nil => rfl
  | cons c rest ih =>
    have hc : c ≠ 45 := hg c (by simp)
    simp only [splitDash, hc, if_false]
    rw [ih (fun x hx => hg x (by simp [hx]))]

theorem splitDash_append (g rest : List Nat) (hg : ∀ c ∈ g, c ≠ 45) :
    splitDash (g ++ 45 :: rest) = g :: splitDash rest := by
  induction g with
  | nil => simp [splitDash]
  | cons c t ih =>
    have hc : c ≠ 45 := hg c (by simp)
    simp only [List.cons_append, splitDash, hc, if_false, List.append_eq]
    rw [ih (fun x hx => hg x (by simp [hx]))]

theorem mem_splitDash_of_mem {c : Nat} {s : List Nat} (h : c ∈ s) (hne : c ≠ 45) :
    ∃ g ∈ splitDash s, c ∈ g := by
  induction s with
  | nil => simp at h
  | cons d rest ih =>
    by_cases hd : d = 45
    · subst hd
      rcases List.mem_cons.mp h with rfl | h'
      · exact absurd rfl hne
      · obtain ⟨g, hg, hcg⟩ := ih h'
        exact ⟨g, by simp [splitDash, hg], hcg⟩
    · cases hrest : splitDash rest with
      | nil => exact absurd hrest (splitDash_ne_nil rest)
      | cons G Gs =>
        have hsplit : splitDash (d :: rest) = (d :: G) :: Gs := by
          simp only [splitDash, hd, if_false, hrest]
        rcases List.mem_cons.mp h with rfl | h'
        · exact ⟨c :: G, by simp [hsplit], by simp⟩
        · obtain ⟨g, hg, hcg⟩ := ih h'
          rw [hrest] at hg
          rcases List.mem_cons.mp hg with rfl | hgs
          · exact ⟨d :: g, by simp [hsplit], by simp [hcg]⟩
          · exact ⟨g, by simp [hsplit, hgs], hcg⟩

theorem readHex16_spec (l : List Nat) (n : Nat) :
    readHex16 l n = (hexAccVal n (l.takeWhile isHexDigit16),
      (l.takeWhile isHexDigit16).length, l.dropWhile isHexDigit16) := by
  induction l generalizing n with
  | nil => simp [readHex16, hexAccVal]
  | cons c rest ih =>
    by_cases hc : isHexDigit16 c
    · rw [List.takeWhile_cons_of_pos hc, List.dropWhile_cons_of_pos hc]
      simp only [readHex16, hc, if_true, ih, hexAccVal, List.foldl_cons, List.length_cons]
    · rw [List.takeWhile_cons_of_neg hc, List.dropWhile_cons_of_neg hc]
      simp only [readHex16, hc, Bool.false_eq_true, if_false, hexAccVal, List.foldl_nil,
        List.length_nil]


theorem parseGroups_decomp_nil (k : Nat) (g : List Nat)
    (hg : ∀ c ∈ g, isHexDigit16 c = true) :
    parseGroups (k + 1) g =
      (if g.length = 0 then .error UA_STATUSCODE_BADINTERNALERROR
      else if 255 < hexGroupVal g then .error UA_STATUSCODE_BADINTERNALERROR
      else if k = 0 then .ok [hexGroupVal g]
      else .error UA_STATUSCODE_BADINTERNALERROR) := by
  have htw := takeWhile_append_all g [] hg (Or.inl rfl)
  have h1 : g.takeWhile isHexDigit16 = g := by simpa using htw.1
  have h2 : g.dropWhile isHexDigit16 = [] := by simpa using htw.2
  have hrw := readHex16_spec g 0
  rw [h1, h2] at hrw
  simp only [parseGroups, hrw, hexGroupVal]

theorem parseGroups_decomp_cons (k : Nat) (g : List Nat) (c : Nat) (r : List Nat)
    (hg : ∀ x ∈ g, isHexDigit16 x = true) (hc : isHexDigit16 c = false) :
    parseGroups (k + 1) (g ++ c :: r) =
      (if g.length = 0 then .error UA_STATUSCODE_BADINTERNALERROR
      else if 255 < hexGroupVal g then .error UA_STATUSCODE_BADINTERNALERROR
      else if c = 45 then
        match parseGroups k r with
        | .ok bs => .ok (hexGroupVal g :: bs)
        | .error e => .error e
      else .error UA_STATUSCODE_BADINTERNALERROR) := by
  have htw := takeWhile_append_all g (c :: r) hg (Or.inr ⟨c, r, rfl, hc⟩)
  have hrw := readHex16_spec (g ++ c :: r) 0
  rw [htw.1, htw.2] at hrw
  simp only [parseGroups, hrw, hexGroupVal]

theorem firstGroup_eq_takeWhile (s G : List Nat) (Gs : List (List Nat))
    (hsp : splitDash s = G :: Gs) (hhex : ∀ c ∈ G, isHexDigit16 c = true) :
    s.takeWhile isHexDigit16 = G := by
  obtain ⟨_, hcase⟩ := splitDash_eq_cons s G Gs hsp
  rcases hcase with ⟨_, hG⟩ | ⟨s2, hG, _⟩
  · rw [hG]
    have h := takeWhile_append_all G [] hhex (Or.inl rfl)
    simpa using h.1
  · rw [hG]
    have h := takeWhile_append_all G (45 :: s2) hhex
      (Or.inr ⟨45, s2, rfl, by decide⟩)
    exact h.1

theorem splitDash_exists_cons (s : List Nat) : ∃ G Gs, splitDash s = G :: Gs := by
  cases hsd : splitDash s with
  | nil => exact absurd hsd (splitDash_ne_nil s)
  | cons G Gs => exact ⟨G, Gs, rfl⟩

theorem parseGroups_isOk_iff_step (k : Nat) (s : List Nat)
    (ihk : ∀ rest : List Nat, k ≠ 0 →
      ((parseGroups k rest).isOk = true ↔
        ((splitDash rest).length = k ∧ ∀ g ∈ splitDash rest, goodGroup g))) :
    (parseGroups (k + 1) s).isOk = true ↔
      ((splitDash s).length = k + 1 ∧ ∀ g ∈ splitDash s, goodGroup g) := by
  have hg : ∀ x ∈ s.takeWhile isHexDigit16, isHexDigit16 x = true :=
    fun x hx => mem_takeWhile_sat hx
  have hgno45 : ∀ x ∈ s.takeWhile isHexDigit16, x ≠ 45 := by
    intro x hx h45
    have hh := hg x hx
    rw [h45] at hh
    exact absurd hh (by decide)
  cases hdw : s.dropWhile isHexDigit16 with
  | nil =>
    have hs_eq : s = s.takeWhile isHexDigit16 := by
      conv_lhs => rw [← List.takeWhile_append_dropWhile isHexDigit16 s]
      rw [hdw, List.append_nil]
    have hparse : parseGroups (k + 1) s =
        parseGroups (k + 1) (s.takeWhile isHexDigit16) := by
      conv_lhs => rw [hs_eq]
    rw [hparse, parseGroups_decomp_nil k _ hg]
    have hsp : splitDash s = [s.takeWhile isHexDigit16] := by
      conv_lhs => rw [hs_eq]
      exact splitDash_no_dash _ hgno45
    rw [hsp]
    simp only [List.length_cons, List.length_nil, List.mem_singleton, forall_eq,
      Nat.zero_add]
    by_cases hlen : (s.takeWhile isHexDigit16).length = 0
    · rw [if_pos hlen]
      refine iff_of_false (by simp [Except.isOk, Except.toBool]) ?_
      rintro ⟨_, hgood⟩
      exact hgood.1 (List.length_eq_zero.mp hlen)
    · rw [if_neg hlen]
      by_cases hval : 255 < hexGroupVal (s.takeWhile isHexDigit16)
      · rw [if_pos hval]
        refine iff_of_false (by simp [Except.isOk, Except.toBool]) ?_
        rintro ⟨_, hgood⟩
        exact absurd hgood.2.2 (by omega)
      · rw [if_neg hval]
        have hgoodg : goodGroup (s.takeWhile isHexDigit16) :=
          ⟨fun hnil => hlen (by rw [hnil]; rfl), hg, by omega⟩
        by_cases hk : k = 0
        · subst hk
          rw [if_pos rfl]
          exact iff_of_true rfl ⟨rfl, hgoodg⟩
        · rw [if_neg hk]
          refine iff_of_false (by simp [Except.isOk, Except.toBool]) ?_
          rintro ⟨hL, _⟩
          exact hk (by omega)
  | cons c rest =>
    have hc : isHexDigit16 c = false := dropWhile_head_false hdw
    have hs_eq : s = s.takeWhile isHexDigit16 ++ c :: rest := by
      conv_lhs => rw [← List.takeWhile_append_dropWhile isHexDigit16 s]
      rw [hdw]
    have hparse : parseGroups (k + 1) s =
        parseGroups (k + 1) (s.takeWhile isHexDigit16 ++ c :: rest) := by
      conv_lhs => rw [hs_eq]
    rw [hparse, parseGroups_decomp_cons k _ c rest hg hc]
    by_cases hlen : (s.takeWhile isHexDigit16).length = 0
    · rw [if_pos hlen]
      refine iff_of_false (by simp [Except.isOk, Except.toBool]) ?_
      rintro ⟨hL, hA⟩
      obtain ⟨G, Gs, hsp⟩ := splitDash_exists_cons s
      have hgood := hA G (by rw [hsp]; simp)
      have hfst := firstGroup_eq_takeWhile s G Gs hsp hgood.2.1
      rw [hfst] at hlen
      exact hgood.1 (List.length_eq_zero.mp hlen)
    · rw [if_neg hlen]
      by_cases hval : 255 < hexGroupVal (s.takeWhile isHexDigit16)
      · rw [if_pos hval]
        refine iff_of_false (by simp [Except.isOk, Except.toBool]) ?_
        rintro ⟨hL, hA⟩
        obtain ⟨G, Gs, hsp⟩ := splitDash_exists_cons s
        have hgood := hA G (by rw [hsp]; simp)
        have hfst := firstGroup_eq_takeWhile s G Gs hsp hgood.2.1
        rw [hfst] at hval
        exact absurd hgood.2.2 (by omega)
      · rw [if_neg hval]
        have hgoodg : goodGroup (s.takeWhile isHexDigit16) :=
          ⟨fun hnil => hlen (by rw [hnil]; rfl), hg, by omega⟩
        by_cases hc45 : c = 45
        · subst hc45
          rw [if_pos rfl]
          have hsp : splitDash s = s.takeWhile isHexDigit16 :: splitDash rest := by
            conv_lhs => rw [hs_eq]
            exact splitDash_append _ _ hgno45
          rw [hsp]
          by_cases hk : k = 0
          · subst hk
            refine iff_of_false ?_ ?_
            · simp [parseGroups, Except.isOk, Except.toBool]
            · rintro ⟨hL, _⟩
              simp only [List.length_cons] at hL
              exact splitDash_ne_nil rest (List.length_eq_zero.mp (by omega))
          · have hmatch : (match parseGroups k rest with
                | Except.ok bs =>
                  Except.ok (hexGroupVal (s.takeWhile isHexDigit16) :: bs)
                | Except.error e => (Except.error e : Except Nat (List Nat))).isOk =
                (parseGroups k rest).isOk := by
              cases parseGroups k rest <;> rfl
            rw [hmatch, ihk rest hk]
            simp only [List.length_cons, List.mem_cons]
            constructor
            · rintro ⟨hL, hA⟩
              refine ⟨by omega, ?_⟩
              rintro g' (rfl | hg')
              · exact hgoodg
              · exact hA g' hg'
            · rintro ⟨hL, hA⟩
              exact ⟨by omega, fun g' hg' => hA g' (Or.inr hg')⟩
        · rw [if_neg hc45]
          refine iff_of_false (by simp [Except.isOk, Except.toBool]) ?_
          rintro ⟨hL, hA⟩
          have hcs : c ∈ s := by
            rw [hs_eq]
            simp
          obtain ⟨g', hg', hcg'⟩ := mem_splitDash_of_mem hcs hc45
          have hhx := (hA g' hg').2.1 c hcg'
          rw [hc] at hhx
          exact absurd hhx (by decide)

theorem parseGroups_isOk_iff (k : Nat) (s : List Nat) :
    (parseGroups (k + 1) s).isOk = true ↔
      ((splitDash s).length = k + 1 ∧ ∀ g ∈ splitDash s, goodGroup g) := by
  induction k generalizing s with
  | zero => exact parseGroups_isOk_iff_step 0 s (fun rest h0 => absurd rfl h0)
  | succ k ih => exact parseGroups_isOk_iff_step (k + 1) s (fun rest _ => ih rest)

theorem parseGroups_error_code (k : Nat) :
    ∀ (s : List Nat) (e : Nat),
      parseGroups k s = .error e → e = UA_STATUSCODE_BADINTERNALERROR := by
  induction k with
  | zero =>
    intro s e h
    simp only [parseGroups] at h
    exact (Except.error.inj h).symm
  | succ k ih =>
    intro s e h
    simp only [parseGroups] at h
    split at h
    · exact (Except.error.inj h).symm
    · split at h
      · exact (Except.error.inj h).symm
      · split at h
        · split at h
          · exact absurd h (by simp)
          · exact (Except.error.inj h).symm
        · split at h
          · split at h
            · exact absurd h (by simp)
            · next e' heq =>
              rw [← (Except.error.inj h)]
              exact ih _ e' heq
          · exact (Except.error.inj h).symm

/-- C5 counterexample: the string `"001-23-45-67-89-ab"` is accepted by
`UA_parseHardwareAddress` although its first group has three digits,
refuting "succeeds exactly on strings that consist of 6 groups of 1–2
hexadecimal digits". -/
theorem C5_counterexample_three_digit_group :
    (UA_parseHardwareAddress threeDigitGroupString).isOk = true ∧
    ¬claimedSixGroups threeDigitGroupString := by decide

/-- C5 (amended): `UA_parseHardwareAddress` succeeds exactly on strings
that consist of 6 groups of one or more hexadecimal digits, each of
value at most 255, separated by single `'-'` characters (so groups
longer than two digits are accepted when their value still fits one
byte, e.g. with leading zeros); every failure — empty group, group value
above one byte, wrong or missing separator, group count different from
6, trailing garbage — returns `UA_STATUSCODE_BADINTERNALERROR` (the
code's encoding of the InvalidAddressFormat error). -/
theorem C5_parse_success_iff (s : List Nat) :
    ((UA_parseHardwareAddress s).isOk = true ↔ sixGoodGroups s) ∧
    ((UA_parseHardwareAddress s).isOk = true ∨
      UA_parseHardwareAddress s = .error UA_STATUSCODE_BADINTERNALERROR) := by
  constructor
  · have h := parseGroups_isOk_iff 5 s
    exact h
  · cases hres : UA_parseHardwareAddress s with
    | ok v => exact Or.inl rfl
    | error e =>
      right
      have he := parseGroups_error_code 6 s e hres
      rw [he]

/-- C6 witness: the classification applied to the concrete multicast
address `01-00-5E-00-00-01`. -/
theorem C6_multicast_classification_witness :
    is_multicast_address [1, 0, 94, 0, 0, 1] = true :=
  (C6_multicast_classification.1 [1, 0, 94, 0, 0, 1] rfl (by decide)).mpr (by decide)
